import Mathlib

set_option maxRecDepth 10000
set_option synthInstance.maxHeartbeats 400000

/-!
Verification of the PII masking/unmasking engine of the groq-serp chatbot
(`src/app.py`).  Python strings are modelled as `List Char`, Python dicts
(`global_mapping`, `placeholder_counter`) as insertion-ordered association
lists, and the external collaborators (the Groq chat-completion endpoint,
`json.loads`, the Serper search API) as oracle functions carried in an
environment record.  All definitions are executable and follow the source
line by line; theorems about the frozen claims come after the definitions.
-/

/-- Python strings are modelled as lists of characters. -/
abbrev Str := List Char

/-- `global_mapping` / classifier mappings: insertion-ordered dict from
placeholder to original value (`dict` preserves insertion order). -/
abbrev Mapping := List (Str × Str)

/-- `placeholder_counter`: insertion-ordered dict from kind to counter. -/
abbrev Counters := List (Str × Nat)

/-- Dict lookup: value of the first (hence unique, in a dict) entry whose
key equals `k`; `none` models a missing key. -/
def lookupAL {β : Type} (m : List (Str × β)) (k : Str) : Option β :=
  (m.find? (fun kv => kv.1 == k)).map (·.2)

/-- Dict write `m[k] = v`: overwrite the entry for `k` in place if present
(keeping insertion order), otherwise append a new entry at the end —
exactly Python dict assignment. -/
def updateAL {β : Type} (m : List (Str × β)) (k : Str) (v : β) : List (Str × β) :=
  match m with
  | [] => [(k, v)]
  | (k0, v0) :: rest =>
    if k0 = k then (k, v) :: rest else (k0, v0) :: updateAL rest k v

/-- The keys of a dict, in insertion order. -/
def keysOf {β : Type} (m : List (Str × β)) : List Str := m.map Prod.fst

/-- `next((k for k,v in mapping.items() if v==match), None)`: the first key
whose value equals `v`. -/
def findKeyByValue (m : Mapping) (v : Str) : Option Str :=
  (m.find? (fun kv => kv.2 == v)).map (·.1)

/-- Decimal digit character, for rendering a counter the way Python
`str(n)` / f-string interpolation does. -/
def digitChar (d : Nat) : Char :=
  if d = 0 then '0' else if d = 1 then '1' else if d = 2 then '2'
  else if d = 3 then '3' else if d = 4 then '4' else if d = 5 then '5'
  else if d = 6 then '6' else if d = 7 then '7' else if d = 8 then '8' else '9'

/-- Worker for decimal rendering; the fuel (any bound above `n`) only
drives structural recursion, the value never runs out of it. -/
def natDigitsGo : Nat → Nat → Str
  | 0, _ => []
  | fuel + 1, n =>
    if n < 10 then [digitChar n]
    else natDigitsGo fuel (n / 10) ++ [digitChar (n % 10)]

/-- Decimal rendering of a natural number (model of Python `str(n)`). -/
def natDigits (n : Nat) : Str := natDigitsGo (n + 1) n

/-- `f"<{kind}_{n}>"`: the placeholder token format. -/
def mkToken (kind : Str) (n : Nat) : Str :=
  '<' :: kind ++ '_' :: natDigits n ++ ['>']

/-- Kind tag `"NAME"`. -/
def kNAME : Str := "NAME".data
/-- Kind tag `"EMAIL"`. -/
def kEMAIL : Str := "EMAIL".data
/-- Kind tag `"PHONE"`. -/
def kPHONE : Str := "PHONE".data
/-- Kind tag `"ID"`. -/
def kID : Str := "ID".data

/-- The four kinds pre-seeded in `st.session_state.placeholder_counter`. -/
def allocKindList : List Str := [kNAME, kEMAIL, kPHONE, kID]

/-- `st.session_state.placeholder_counter = {"NAME":0,"EMAIL":0,"PHONE":0,"ID":0}`. -/
def initCounters : Counters := [(kNAME, 0), (kEMAIL, 0), (kPHONE, 0), (kID, 0)]

/-- `_next_placeholder(kind)`: `placeholder_counter[kind] += 1` then
`return f"<{kind}_{counter[kind]}>"`.  `none` models the `KeyError` raised
by `+= 1` when `kind` is not already a key of the counter dict. -/
def next_placeholder (kind : Str) (ctrs : Counters) : Option (Str × Counters) :=
  match lookupAL ctrs kind with
  | none => none
  | some n => some (mkToken kind (n + 1), updateAL ctrs kind (n + 1))

/-! ## Regex models

The three detector regexes of `mask_pii` contain no capture groups, so
`re.findall` returns whole matches.  For each pattern every greedy
character-class run is over a class that excludes the character required
next (`@`, `.`, a digit, a word boundary between two digits), so the
backtracking regex engine behaves like the deterministic longest-run
matchers below; the scan tries every start position left to right and
resumes after the end of each match, exactly like `re.findall`. -/

/-- Class `[a-zA-Z0-9_.+-]` (email local part). -/
def isLocalChar (c : Char) : Bool :=
  c.isAlpha || c.isDigit || c == '_' || c == '.' || c == '+' || c == '-'

/-- Class `[a-zA-Z0-9-]` (email domain label). -/
def isDomainChar (c : Char) : Bool := c.isAlpha || c.isDigit || c == '-'

/-- Class `[a-zA-Z0-9-.]` (email domain tail). -/
def isTailChar (c : Char) : Bool :=
  c.isAlpha || c.isDigit || c == '-' || c == '.'

/-- ASCII `\s`. -/
def isSpaceChar (c : Char) : Bool :=
  c == ' ' || c == '\t' || c == '\n' || c == '\x0d' || c == '\x0b' || c == '\x0c'

/-- Class `[-.\s]` (phone separators). -/
def isSepChar (c : Char) : Bool := c == '-' || c == '.' || isSpaceChar c

/-- ASCII `\w` (for `\b` word boundaries). -/
def isWordChar (c : Char) : Bool := c.isAlpha || c.isDigit || c == '_'

/-- Attempt `[a-zA-Z0-9_.+-]+@[a-zA-Z0-9-]+\.[a-zA-Z0-9-.]+` at the head of
`l`; on success returns the matched span and the rest of the input. -/
def emailMatchAt (l : Str) : Option (Str × Str) :=
  let loc := l.takeWhile isLocalChar
  let r1 := l.dropWhile isLocalChar
  if loc = [] then none else
  match r1 with
  | '@' :: r2 =>
    let dom := r2.takeWhile isDomainChar
    let r3 := r2.dropWhile isDomainChar
    if dom = [] then none else
    match r3 with
    | '.' :: r4 =>
      let tl := r4.takeWhile isTailChar
      let r5 := r4.dropWhile isTailChar
      if tl = [] then none else
      some (loc ++ '@' :: dom ++ '.' :: tl, r5)
    | _ => none
  | _ => none

/-- Scan loop of `re.findall` for the email pattern: try a match at every
position, resuming after the end of each successful match.  The fuel is an
upper bound on the number of steps (each step consumes at least one
character). -/
def emailScan : Nat → Str → List Str
  | 0, _ => []
  | _ + 1, [] => []
  | fuel + 1, c :: cs =>
    match emailMatchAt (c :: cs) with
    | some (m, rest) => m :: emailScan fuel rest
    | none => emailScan fuel cs

/-- `re.findall(r"[a-zA-Z0-9_.+-]+@[a-zA-Z0-9-]+\.[a-zA-Z0-9-.]+", text)`. -/
def emailFindall (l : Str) : List Str := emailScan (l.length + 1) l

/-- Three consecutive `\d`. -/
def digits3 : Str → Option (Str × Str)
  | a :: b :: c :: r =>
    if a.isDigit && b.isDigit && c.isDigit then some ([a, b, c], r) else none
  | _ => none

/-- Four consecutive `\d`. -/
def digits4 : Str → Option (Str × Str)
  | a :: b :: c :: d :: r =>
    if a.isDigit && b.isDigit && c.isDigit && d.isDigit then some ([a, b, c, d], r)
    else none
  | _ => none

/-- `[-.\s]?`: greedily consume one separator if present (a separator is
never a digit, so not consuming it could not make the rest match). -/
def optSep : Str → Str × Str
  | [] => ([], [])
  | c :: r => if isSepChar c then ([c], r) else ([], c :: r)

/-- `\b` against the character following a match (`true` at end of input). -/
def boundaryAfter : Str → Bool
  | [] => true
  | c :: _ => !(isWordChar c)

/-- `\b` against the character preceding a position (`none` = start). -/
def boundaryBefore : Option Char → Bool
  | none => true
  | some c => !(isWordChar c)

/-- Attempt `\d{3}[-.\s]?\d{3}[-.\s]?\d{4}\b` at the head of `l` (the
leading `\b` is checked by the scanner). -/
def phoneMatchAt (l : Str) : Option (Str × Str) :=
  match digits3 l with
  | none => none
  | some (d1, r1) =>
    let s1 := optSep r1
    match digits3 s1.2 with
    | none => none
    | some (d2, r3) =>
      let s2 := optSep r3
      match digits4 s2.2 with
      | none => none
      | some (d3, r5) =>
        if boundaryAfter r5 then some (d1 ++ s1.1 ++ d2 ++ s2.1 ++ d3, r5) else none

/-- Scan loop of `re.findall` for the phone pattern, tracking the previous
character for the leading `\b`. -/
def phoneScan : Nat → Option Char → Str → List Str
  | 0, _, _ => []
  | _ + 1, _, [] => []
  | fuel + 1, prev, c :: cs =>
    if boundaryBefore prev then
      match phoneMatchAt (c :: cs) with
      | some (m, rest) => m :: phoneScan fuel (m.getLast?.orElse fun _ => prev) rest
      | none => phoneScan fuel (some c) cs
    else phoneScan fuel (some c) cs

/-- `re.findall(r"\b\d{3}[-.\s]?\d{3}[-.\s]?\d{4}\b", text)`. -/
def phoneFindall (l : Str) : List Str := phoneScan (l.length + 1) none l

/-- Attempt `\d{4,}\b` at the head of `l` (`\d{4,}` is greedy and `\b`
never holds between two digits, so only the maximal run can match). -/
def idMatchAt (l : Str) : Option (Str × Str) :=
  let run := l.takeWhile Char.isDigit
  let rest := l.dropWhile Char.isDigit
  if 4 ≤ run.length && boundaryAfter rest then some (run, rest) else none

/-- Scan loop of `re.findall` for the ID pattern. -/
def idScan : Nat → Option Char → Str → List Str
  | 0, _, _ => []
  | _ + 1, _, [] => []
  | fuel + 1, prev, c :: cs =>
    if boundaryBefore prev then
      match idMatchAt (c :: cs) with
      | some (m, rest) => m :: idScan fuel (m.getLast?.orElse fun _ => prev) rest
      | none => idScan fuel (some c) cs
    else idScan fuel (some c) cs

/-- `re.findall(r"\b\d{4,}\b", text)`. -/
def idFindall (l : Str) : List Str := idScan (l.length + 1) none l

/-- Worker for `str.replace`: replace non-overlapping occurrences of `pat`
left to right. -/
def replGo (pat rep : Str) : Nat → Str → Str
  | 0, l => l
  | _ + 1, [] => []
  | fuel + 1, c :: cs =>
    if pat.isPrefixOf (c :: cs) then rep ++ replGo pat rep fuel ((c :: cs).drop pat.length)
    else c :: replGo pat rep fuel cs

/-- Python `text.replace(pat, rep)` (all occurrences).  The patterns used
by the program (regex matches and placeholder tokens) are never empty. -/
def replaceAll (pat rep l : Str) : Str :=
  if pat = [] then l else replGo pat rep (l.length + 1) l

/-- Substring test (used only to state theorems about placeholders
occurring in a text). -/
def containsSub (pat : Str) : Str → Bool
  | [] => pat.isPrefixOf []
  | c :: cs => pat.isPrefixOf (c :: cs) || containsSub pat cs

/-- Python `str.strip()` (ASCII whitespace). -/
def stripChars (l : Str) : Str :=
  ((l.dropWhile isSpaceChar).reverse.dropWhile isSpaceChar).reverse

/-! ## Deterministic detector pass (steps 1-3 of `mask_pii`) -/

/-- Working state of one `mask_pii` call: the (aliased) session mapping,
the session counters and the partially masked text. -/
structure DetState where
  mapping : Mapping
  counters : Counters
  masked : Str
  deriving DecidableEq, Repr

/-- Allocation arm of the loop body: `_next_placeholder(kind)` followed by
`mapping[ph] = match` and `masked = masked.replace(match, ph)`.  `none`
propagates the `KeyError` of `_next_placeholder`. -/
def processAlloc (kind m : Str) (st : DetState) : Option (Str × DetState) :=
  match next_placeholder kind st.counters with
  | none => none
  | some (ph, ctrs) =>
    some (ph, ⟨updateAL st.mapping ph m, ctrs, replaceAll m ph st.masked⟩)

/-- One iteration of a detector loop of `mask_pii`:
`ph = next((k for k,v in mapping.items() if v==match), None) or _next_placeholder(kind)`
(`or` re-allocates when the found key is falsy, i.e. the empty string),
then `mapping[ph] = match` and `masked = masked.replace(match, ph)`.
Returns the placeholder that was used together with the new state. -/
def processMatch (kind m : Str) (st : DetState) : Option (Str × DetState) :=
  match findKeyByValue st.mapping m with
  | some k =>
    if k = [] then processAlloc kind m st
    else some (k, ⟨updateAL st.mapping k m, st.counters, replaceAll m k st.masked⟩)
  | none => processAlloc kind m st

/-- A whole `for match in re.findall(...)` loop.  The error value carries
the state at the moment a `KeyError` escapes mid-loop (Python would leave
the session dicts exactly in that state). -/
def detFold (kind : Str) : List Str → DetState → Except DetState DetState
  | [], st => .ok st
  | m :: ms, st =>
    match processMatch kind m st with
    | some (_, st1) => detFold kind ms st1
    | none => .error st

/-- Steps 1-3 of `mask_pii`: the three regex loops, each matching over the
original `text`, in the order EMAIL, PHONE, ID. -/
def detPass (text : Str) (mapping : Mapping) (ctrs : Counters) : Except DetState DetState :=
  (detFold kEMAIL (emailFindall text) ⟨mapping, ctrs, text⟩).bind fun st1 =>
    (detFold kPHONE (phoneFindall text) st1).bind fun st2 =>
      detFold kID (idFindall text) st2

/-- State carried by either outcome of a detector fold. -/
def exState : Except DetState DetState → DetState
  | .ok st => st
  | .error st => st

/-! ## External collaborators (oracles) and `call_llm` -/

/-- Outcome of one attempt of the Groq chat-completion call: a
`RateLimitError` or a successful message content. -/
inductive AttemptR where
  | rateLimit : AttemptR
  | ok : Str → AttemptR
  deriving DecidableEq, Repr

/-- Result of `json.loads` on a classifier response, as far as `mask_pii`
inspects it: the `masked_text` and `mapping` items of the decoded dict,
`none` when the item is absent (or the decoded value is not a dict), so
that subscripting raises. -/
structure RawJson where
  masked_text : Option Str
  mapping : Option Mapping
  deriving DecidableEq, Repr

/-- The external world of one turn: whether `groq_client` is configured,
the per-attempt outcomes of the two chat-completion call sites, the
behaviour of `json.loads`, and the Serper search endpoint (its decoded
response represented by its `json.dumps` serialization). -/
structure Env where
  groq : Bool
  clsAttempts : Nat → Str → AttemptR
  ansAttempts : Nat → Str → AttemptR
  jsonParse : Str → Option RawJson
  search : Str → Except Unit Str

/-- `"Error: missing GROQ_API_KEY."` -/
def missingKeyMsg : Str := "Error: missing GROQ_API_KEY.".data

/-- The retry loop of `call_llm`: `for attempt in range(3)` over the list
of remaining attempt indices, with `backoff = 1` doubling after each
rate-limited attempt; a rate-limited final attempt (`attempt < 2` false)
re-raises.  Returns (result, sleeps performed, number of attempts made). -/
def callLlmGo (attempts : Nat → Str → AttemptR) (prompt : Str) :
    List Nat → Nat → List Nat → Except Unit Str × List Nat × Nat
  | [], _, sleeps => (.error (), sleeps, 3)
  | [a], _, sleeps =>
    match attempts a prompt with
    | .ok c => (.ok c, sleeps, a + 1)
    | .rateLimit => (.error (), sleeps, a + 1)
  | a :: b :: rest, backoff, sleeps =>
    match attempts a prompt with
    | .ok c => (.ok c, sleeps, a + 1)
    | .rateLimit => callLlmGo attempts prompt (b :: rest) (backoff * 2) (sleeps ++ [backoff])

/-- `call_llm(prompt)`: returns the error string (not an exception) when no
Groq client is configured, otherwise runs the `range(3)` retry loop. -/
def call_llm (groq : Bool) (attempts : Nat → Str → AttemptR) (prompt : Str) :
    Except Unit Str × List Nat × Nat :=
  if groq then callLlmGo attempts prompt [0, 1, 2] 1 [] else (.ok missingKeyMsg, [], 0)

/-- The opening-brace character, written via its code point. -/
def lbrace : Char := Char.ofNat 123
/-- The closing-brace character, written via its code point. -/
def rbrace : Char := Char.ofNat 125

/-- `re.search(r"\{.*\}", raw, re.DOTALL)`: with a greedy dot-all `.*` this
matches from the first `{` that has any `}` after it through the last `}`
of the string, i.e. (first `{`, last `}`) whenever that span is nonempty. -/
def braceSpan (l : Str) : Option Str :=
  match l.findIdx? (· == lbrace) with
  | none => none
  | some i =>
    match l.reverse.findIdx? (· == rbrace) with
    | none => none
    | some rj =>
      let j := l.length - 1 - rj
      if i < j then some ((l.drop i).take (j - i + 1)) else none

/-- Fixed part of the classifier instruction before the masked text. -/
def maskPromptPre : Str :=
  "Mask any *other* private or sensitive PII in this text, but leave public figures and company names untouched.\n\nText:\n\x27\x27\x27".data

/-- Fixed part of the classifier instruction after the masked text. -/
def maskPromptPost : Str :=
  "\x27\x27\x27\n\nReturn *only* JSON with keys \x60masked_text\x60 and \x60mapping\x60.".data

/-- How a `mask_pii` call can fail (each constructor is one exception the
source can raise out of, or stop inside, `mask_pii`). -/
inductive MaskErr where
  /-- `KeyError` from `_next_placeholder` on an unseen kind. -/
  | counterKeyError : MaskErr
  /-- `RateLimitError` re-raised by `call_llm` after three attempts. -/
  | rateLimited : MaskErr
  /-- `st.stop()`: no top-level brace block in the raw response. -/
  | stopped : MaskErr
  /-- `JSONDecodeError` from the second `json.loads` on the brace block. -/
  | jsonDecodeError : MaskErr
  /-- `KeyError` on `data["mapping"]`. -/
  | mappingFieldMissing : MaskErr
  /-- `KeyError` on `data["masked_text"]` (after the merge loop ran). -/
  | maskedTextFieldMissing : MaskErr
  deriving DecidableEq, Repr

/-- The merge loop of `mask_pii`:
`for ph, orig in data["mapping"].items(): if ph not in mapping: mapping[ph] = orig`
(first-writer-wins). -/
def mergeMapping (m : Mapping) (mp : Mapping) : Mapping :=
  mp.foldl (fun acc kv => if (lookupAL acc kv.1).isSome then acc else updateAL acc kv.1 kv.2) m

/-- `mask_pii(text)`.  Input: the session `global_mapping` and
`placeholder_counter`; output: the result (`masked, turn_map` on success,
the raised/stopping failure otherwise) together with the session dicts as
mutated so far — the deterministic-pass and merge-loop writes persist even
when a later step fails, because the source mutates
`st.session_state.global_mapping` in place. -/
def mask_pii (env : Env) (mapping : Mapping) (ctrs : Counters) (text : Str) :
    Except MaskErr (Str × Mapping) × Mapping × Counters :=
  match detPass text mapping ctrs with
  | .error st => (.error .counterKeyError, st.mapping, st.counters)
  | .ok st =>
    let prompt := maskPromptPre ++ st.masked ++ maskPromptPost
    match (call_llm env.groq env.clsAttempts prompt).1 with
    | .error _ => (.error .rateLimited, st.mapping, st.counters)
    | .ok raw =>
      let parsed : Except MaskErr RawJson :=
        match env.jsonParse raw with
        | some d => .ok d
        | none =>
          match braceSpan raw with
          | none => .error .stopped
          | some sub =>
            match env.jsonParse sub with
            | some d => .ok d
            | none => .error .jsonDecodeError
      match parsed with
      | .error e => (.error e, st.mapping, st.counters)
      | .ok data =>
        match data.mapping with
        | none => (.error .mappingFieldMissing, st.mapping, st.counters)
        | some mp =>
          let mapping1 := mergeMapping st.mapping mp
          match data.masked_text with
          | none => (.error .maskedTextFieldMissing, mapping1, st.counters)
          | some mt =>
            let turn_map : Mapping := mp.map fun kv => (kv.1, (lookupAL mapping1 kv.1).getD [])
            (.ok (mt, turn_map), mapping1, st.counters)

/-- `unmask_pii(text, turn_map)`: global replacement of each placeholder by
its original value, in mapping order. -/
def unmask_pii (text : Str) (turn_map : Mapping) : Str :=
  turn_map.foldl (fun t kv => replaceAll kv.1 kv.2 t) text

/-! ## The turn handler `on_enter` -/

/-- The `last_turn` record (only the fields the core computes; the rest of
the stored dict is external-call diagnostics). -/
structure TurnRec where
  masked_query : Str
  turn_map : Mapping
  final_answer : Str
  deriving DecidableEq, Repr

/-- `st.session_state`: the cumulative mapping, the per-kind counters, the
stored last turn, and the input-box content. -/
structure SState where
  global_mapping : Mapping
  placeholder_counter : Counters
  last_turn : Option TurnRec
  user_input : Str
  deriving DecidableEq, Repr

/-- What one `on_enter` invocation reports to the user. -/
inductive TurnOutcome where
  /-- Early return on blank input: nothing displayed, nothing changed. -/
  | noop : TurnOutcome
  /-- `st.error("... Rate limit exceeded ...")` from `except RateLimitError`. -/
  | errRateLimit : TurnOutcome
  /-- `st.error(f"Unexpected error: ...")` from `except Exception`
  (including the `StopException` raised by `st.stop`, which subclasses `Exception`). -/
  | errUnexpected : TurnOutcome
  deriving DecidableEq, Repr

/-- External calls that leave the trust boundary, in the order they are
issued during a turn. -/
inductive ExtCall where
  /-- The classifier chat-completion call inside `mask_pii`. -/
  | classifierLlm : ExtCall
  /-- `serp_search(masked_q)`. -/
  | serpSearch : Str → ExtCall
  /-- The answer-generation `call_llm(prompt)`. -/
  | answerLlm : Str → ExtCall
  deriving DecidableEq, Repr

/-- `"You are a helpful assistant. Use these results:\n"` -/
def ansPromptPre : Str := "You are a helpful assistant. Use these results:\n".data
/-- `"\n\nQuestion: "` -/
def ansPromptMid : Str := "\n\nQuestion: ".data

/-- `on_enter()`: strip the input and return on blank; otherwise mask,
search, generate; the Phoenix-evals step then raises `NameError` on every
path because `pd` (pandas) is never imported in the source, so the
unmask/store tail of the `try` block is unreachable and every non-blank
turn ends in an error report.  The `finally` clause clears the input box
(only when the `try` block was entered).  Returns the new session state,
the user-visible outcome, and the log of external calls issued. -/
def on_enter (env : Env) (st : SState) : SState × TurnOutcome × List ExtCall :=
  let user_input := stripChars st.user_input
  if user_input = [] then (st, .noop, [])
  else
    let r := mask_pii env st.global_mapping st.placeholder_counter user_input
    let st1 : SState :=
      { st with global_mapping := r.2.1, placeholder_counter := r.2.2, user_input := [] }
    match r.1 with
    | .error .rateLimited => (st1, .errRateLimit, [.classifierLlm])
    | .error _ => (st1, .errUnexpected, [.classifierLlm])
    | .ok (masked_q, _turn_map) =>
      match env.search masked_q with
      | .error _ => (st1, .errUnexpected, [.classifierLlm, .serpSearch masked_q])
      | .ok serp_dump =>
        let prompt := ansPromptPre ++ serp_dump ++ ansPromptMid ++ masked_q
        match (call_llm env.groq env.ansAttempts prompt).1 with
        | .error _ =>
          (st1, .errRateLimit, [.classifierLlm, .serpSearch masked_q, .answerLlm prompt])
        | .ok _masked_ans =>
          (st1, .errUnexpected, [.classifierLlm, .serpSearch masked_q, .answerLlm prompt])

/-! ## Concrete environments used in witnesses and counterexamples -/

/-- Prefix of the canonical JSON shape
`{"masked_text": "..." , "mapping": {}}` produced by a well-behaved
classifier that masks nothing. -/
def jwPre : Str := "\x7b\"masked_text\": \"".data

/-- Suffix of the canonical empty-mapping JSON shape. -/
def jwPost : Str := "\", \"mapping\": \x7b\x7d\x7d".data

/-- `{"masked_text": "<m>", "mapping": {}}`. -/
def jsonWrap (m : Str) : Str := jwPre ++ m ++ jwPost

/-- A model of `json.loads` that decodes exactly the canonical
empty-mapping shape above (sound for bodies without quotes/escapes). -/
def echoJsonParse (raw : Str) : Option RawJson :=
  if jwPre.isPrefixOf raw && jwPost.isSuffixOf raw
      && jwPre.length + jwPost.length ≤ raw.length then
    some ⟨some ((raw.drop jwPre.length).take (raw.length - jwPre.length - jwPost.length)),
          some []⟩
  else none

/-- The text placed between the fixed parts of the classifier prompt. -/
def promptBody (p : Str) : Str :=
  (p.drop maskPromptPre.length).take (p.length - maskPromptPre.length - maskPromptPost.length)

/-- A benign external world: the classifier echoes its input text inside
the canonical JSON shape with an empty mapping, search succeeds, and the
answer generation succeeds. -/
def echoEnv : Env where
  groq := true
  clsAttempts := fun _ p => .ok (jsonWrap (promptBody p))
  ansAttempts := fun _ _ => .ok "ok".data
  jsonParse := echoJsonParse
  search := fun _ => .ok "[]".data

/-- Raw classifier response that contributes its own placeholder token
`<EMAIL_1>` for the value `bob`:
`{"masked_text": "hi", "mapping": {"<EMAIL_1>": "bob"}}`. -/
def advRaw : Str :=
  "\x7b\"masked_text\": \"hi\", \"mapping\": \x7b\"<EMAIL_1>\": \"bob\"\x7d\x7d".data

/-- An external world whose classifier emits `advRaw` (and whose JSON
decoder decodes it accordingly). -/
def advEnv : Env where
  groq := true
  clsAttempts := fun _ _ => .ok advRaw
  ansAttempts := fun _ _ => .ok "ok".data
  jsonParse := fun raw =>
    if raw = advRaw then some ⟨some "hi".data, some [("<EMAIL_1>".data, "bob".data)]⟩
    else echoJsonParse raw
  search := fun _ => .ok "[]".data

/-- A classifier that reports an empty mapping but rewrites the text to
`REDACTED` instead of echoing it. -/
def rewriteEnv : Env :=
  { echoEnv with clsAttempts := fun _ _ => .ok (jsonWrap "REDACTED".data) }

/-- A classifier that answers with prose containing no brace block at all,
so both parse attempts fail. -/
def stopEnv : Env :=
  { echoEnv with clsAttempts := fun _ _ => .ok "I cannot comply".data }
/-! ## Dictionary lemmas -/

theorem lookupAL_cons {β : Type} (k0 : Str) (v0 : β) (m : List (Str × β)) (k : Str) :
    lookupAL ((k0, v0) :: m) k = if k0 = k then some v0 else lookupAL m k := by
  by_cases h : k0 = k
  · simp [lookupAL, List.find?_cons_of_pos, h]
  · simp only [lookupAL, h, if_false]
    rw [List.find?_cons_of_neg]
    simpa using h

theorem lookupAL_eq_none {β : Type} (m : List (Str × β)) (k : Str) :
    lookupAL m k = none ↔ k ∉ keysOf m := by
  induction m with
  | nil => simp [lookupAL, keysOf]
  | cons kv rest ih =>
    obtain ⟨k0, v0⟩ := kv
    rw [lookupAL_cons]
    by_cases h : k0 = k
    · subst h
      simp [keysOf]
    · rw [if_neg h, ih]
      simp only [keysOf, List.map_cons, List.mem_cons, not_or]
      constructor
      · intro hn
        exact ⟨fun hk => h hk.symm, hn⟩
      · intro hn
        exact hn.2

theorem lookupAL_mem {β : Type} (m : List (Str × β)) (k : Str) (v : β)
    (h : lookupAL m k = some v) : (k, v) ∈ m := by
  induction m with
  | nil => simp [lookupAL] at h
  | cons kv rest ih =>
    obtain ⟨k0, v0⟩ := kv
    rw [lookupAL_cons] at h
    by_cases hk : k0 = k
    · rw [if_pos hk] at h
      subst hk
      simp [Option.some.inj h]
    · rw [if_neg hk] at h
      exact List.mem_cons_of_mem _ (ih h)

theorem mem_lookupAL {β : Type} (m : List (Str × β)) (k : Str) (v : β)
    (hnd : (keysOf m).Nodup) (h : (k, v) ∈ m) : lookupAL m k = some v := by
  induction m with
  | nil => simp at h
  | cons kv rest ih =>
    obtain ⟨k0, v0⟩ := kv
    simp only [keysOf, List.map_cons, List.nodup_cons] at hnd
    rw [lookupAL_cons]
    rcases List.mem_cons.mp h with h1 | h1
    · rw [Prod.mk.injEq] at h1
      rw [if_pos h1.1.symm, h1.2]
    · have hk : k0 ≠ k := by
        rintro rfl
        exact hnd.1 (by simpa [keysOf] using List.mem_map_of_mem Prod.fst h1)
      rw [if_neg hk]
      exact ih hnd.2 h1

theorem mem_mem_nodup {β : Type} (m : List (Str × β)) (k : Str) (v w : β)
    (hnd : (keysOf m).Nodup) (h1 : (k, v) ∈ m) (h2 : (k, w) ∈ m) : v = w := by
  have e1 := mem_lookupAL m k v hnd h1
  have e2 := mem_lookupAL m k w hnd h2
  rw [e1] at e2
  exact Option.some.inj e2

theorem updateAL_of_mem {β : Type} (m : List (Str × β)) (k : Str) (v : β)
    (hnd : (keysOf m).Nodup) (h : (k, v) ∈ m) : updateAL m k v = m := by
  induction m with
  | nil => simp at h
  | cons kv rest ih =>
    obtain ⟨k0, v0⟩ := kv
    simp only [keysOf, List.map_cons, List.nodup_cons] at hnd
    rcases List.mem_cons.mp h with h1 | h1
    · rw [Prod.mk.injEq] at h1
      obtain ⟨hk, hv⟩ := h1
      subst hk
      subst hv
      simp [updateAL]
    · have hk : k0 ≠ k := by
        rintro rfl
        exact hnd.1 (by simpa [keysOf] using List.mem_map_of_mem Prod.fst h1)
      rw [updateAL, if_neg hk, ih hnd.2 h1]

theorem updateAL_of_not_mem {β : Type} (m : List (Str × β)) (k : Str) (v : β)
    (h : k ∉ keysOf m) : updateAL m k v = m ++ [(k, v)] := by
  induction m with
  | nil => simp [updateAL]
  | cons kv rest ih =>
    obtain ⟨k0, v0⟩ := kv
    simp only [keysOf, List.map_cons, List.mem_cons, not_or] at h
    rw [updateAL, if_neg (fun he => h.1 he.symm), List.cons_append,
      ih (by simpa [keysOf] using h.2)]

theorem findKeyByValue_mem (m : Mapping) (v k : Str)
    (h : findKeyByValue m v = some k) : (k, v) ∈ m := by
  unfold findKeyByValue at h
  obtain ⟨kv, hfind, hmap⟩ := Option.map_eq_some'.mp h
  have hm := List.mem_of_find?_eq_some hfind
  have hp := List.find?_some hfind
  obtain ⟨k1, v1⟩ := kv
  simp only [beq_iff_eq] at hp
  simp only at hmap
  subst hmap
  subst hp
  exact hm

/-! ## Injectivity of the placeholder token format -/

/-- Decimal value of a digit string, with accumulator `a`. -/
def valFrom (a : Nat) (l : Str) : Nat :=
  l.foldl (fun x c => x * 10 + (c.toNat - 48)) a

theorem digitChar_toNat (d : Nat) (h : d < 10) : (digitChar d).toNat - 48 = d := by
  interval_cases d <;> rfl

theorem natDigitsGo_val (fuel : Nat) :
    ∀ n, n < fuel → valFrom 0 (natDigitsGo fuel n) = n := by
  induction fuel with
  | zero => omega
  | succ fuel ih =>
    intro n hn
    rw [natDigitsGo]
    by_cases h10 : n < 10
    · rw [if_pos h10]
      show 0 * 10 + ((digitChar n).toNat - 48) = n
      rw [digitChar_toNat n h10]
      omega
    · rw [if_neg h10]
      have hdiv : n / 10 < fuel := by
        have := Nat.div_lt_self (show 0 < n by omega) (show 1 < 10 by omega)
        omega
      have hih := ih (n / 10) hdiv
      unfold valFrom at hih ⊢
      rw [List.foldl_append, hih]
      show n / 10 * 10 + ((digitChar (n % 10)).toNat - 48) = n
      rw [digitChar_toNat (n % 10) (Nat.mod_lt n (by omega))]
      omega

theorem natDigits_val (n : Nat) : valFrom 0 (natDigits n) = n :=
  natDigitsGo_val (n + 1) n (Nat.lt_succ_self n)

theorem natDigits_inj (m n : Nat) (h : natDigits m = natDigits n) : m = n := by
  have hm := natDigits_val m
  rw [h, natDigits_val n] at hm
  exact hm.symm

theorem append_singleton_cancel {α : Type} (l1 l2 : List α) (a : α)
    (h : l1 ++ [a] = l2 ++ [a]) : l1 = l2 := by
  have hr := congrArg List.reverse h
  simpa using hr

theorem mkToken_inj_same (K : Str) (i j : Nat) (h : mkToken K i = mkToken K j) : i = j := by
  unfold mkToken at h
  simp only [List.cons_append, List.append_assoc, List.cons.injEq, true_and] at h
  have h2 := List.append_cancel_left h
  simp only [List.cons.injEq, true_and] at h2
  exact natDigits_inj i j (append_singleton_cancel _ _ _ h2)

theorem kNAME_chars : kNAME = ['N', 'A', 'M', 'E'] := rfl
theorem kEMAIL_chars : kEMAIL = ['E', 'M', 'A', 'I', 'L'] := rfl
theorem kPHONE_chars : kPHONE = ['P', 'H', 'O', 'N', 'E'] := rfl
theorem kID_chars : kID = ['I', 'D'] := rfl

theorem mkToken_inj_kinds (K1 K2 : Str) (h1 : K1 ∈ allocKindList) (h2 : K2 ∈ allocKindList)
    (i j : Nat) (h : mkToken K1 i = mkToken K2 j) : K1 = K2 ∧ i = j := by
  simp only [allocKindList, List.mem_cons, List.not_mem_nil, or_false] at h1 h2
  rcases h1 with rfl | rfl | rfl | rfl <;> rcases h2 with rfl | rfl | rfl | rfl <;>
    first
      | exact ⟨rfl, mkToken_inj_same _ i j h⟩
      | exact absurd (congrArg (fun l => l[1]?) h)
          (by simp [mkToken, kNAME_chars, kEMAIL_chars, kPHONE_chars, kID_chars,
                List.cons_append])

/-! ## Session invariant: keys stay unique, allocator tokens stay fresh -/

theorem kN_ne_kE : kNAME ≠ kEMAIL := by decide
theorem kN_ne_kP : kNAME ≠ kPHONE := by decide
theorem kN_ne_kI : kNAME ≠ kID := by decide
theorem kE_ne_kP : kEMAIL ≠ kPHONE := by decide
theorem kE_ne_kI : kEMAIL ≠ kID := by decide
theorem kP_ne_kI : kPHONE ≠ kID := by decide

/-- The counter value of a kind (the default is never consulted under
`CounterShape`). -/
def ctrOf (c : Counters) (K : Str) : Nat := (lookupAL c K).getD 0

/-- The counter dict always keeps exactly its four initial keys: every
mutation is `updateAL` on one of them. -/
def CounterShape (c : Counters) : Prop :=
  ∃ a b p d, c = [(kNAME, a), (kEMAIL, b), (kPHONE, p), (kID, d)]

/-- Entry preservation: the session mapping only ever grows, entries are
never removed or re-valued. -/
def SubmapE (m m' : Mapping) : Prop := ∀ k v, (k, v) ∈ m → (k, v) ∈ m'

theorem SubmapE.refl (m : Mapping) : SubmapE m m := fun _ _ h => h

theorem SubmapE.trans {m1 m2 m3 : Mapping} (h1 : SubmapE m1 m2) (h2 : SubmapE m2 m3) :
    SubmapE m1 m3 := fun k v h => h2 k v (h1 k v h)

/-- Invariant tying the session mapping to the counters: keys are unique
(it is a dict), the counters have their four keys, and every
allocator-shaped key `<KIND_i>` already present has `i` at most the current
counter of `KIND` — so a fresh allocation can never hit an existing key. -/
def MaskInv (m : Mapping) (c : Counters) : Prop :=
  (keysOf m).Nodup ∧ CounterShape c ∧
    ∀ K, K ∈ allocKindList → ∀ i, mkToken K i ∈ keysOf m → i ≤ ctrOf c K

theorem maskInv_init : MaskInv [] initCounters := by
  refine ⟨by simp [keysOf], ⟨0, 0, 0, 0, rfl⟩, ?_⟩
  intro K _ i h
  simp [keysOf] at h

theorem lookupAL_updateAL_self {β : Type} (m : List (Str × β)) (k : Str) (v : β) :
    lookupAL (updateAL m k v) k = some v := by
  induction m with
  | nil => simp [updateAL, lookupAL_cons]
  | cons kv rest ih =>
    obtain ⟨k0, v0⟩ := kv
    by_cases h : k0 = k
    · simp [updateAL, h, lookupAL_cons]
    · simp only [updateAL, if_neg h]
      rw [lookupAL_cons, if_neg h, ih]

theorem updateAL_nil {β : Type} (k : Str) (v : β) : updateAL [] k v = [(k, v)] := rfl

theorem updateAL_cons {β : Type} (k0 : Str) (v0 : β) (rest : List (Str × β)) (k : Str) (v : β) :
    updateAL ((k0, v0) :: rest) k v =
      if k0 = k then (k, v) :: rest else (k0, v0) :: updateAL rest k v := rfl

theorem lookupAL_updateAL_ne {β : Type} (m : List (Str × β)) (k k' : Str) (v : β)
    (h : k' ≠ k) : lookupAL (updateAL m k v) k' = lookupAL m k' := by
  induction m with
  | nil =>
    rw [updateAL_nil, lookupAL_cons, if_neg (fun he => h he.symm)]
  | cons kv rest ih =>
    obtain ⟨k0, v0⟩ := kv
    rw [updateAL_cons]
    by_cases h0 : k0 = k
    · subst h0
      rw [if_pos rfl, lookupAL_cons, lookupAL_cons, if_neg (fun he => h he.symm),
        if_neg (fun he => h he.symm)]
    · rw [if_neg h0, lookupAL_cons, lookupAL_cons]
      by_cases h1 : k0 = k'
      · rw [if_pos h1, if_pos h1]
      · rw [if_neg h1, if_neg h1, ih]

theorem shape_lookup (c : Counters) (hc : CounterShape c) (K : Str)
    (hK : K ∈ allocKindList) : lookupAL c K = some (ctrOf c K) := by
  obtain ⟨a, b, p, d, rfl⟩ := hc
  simp only [allocKindList, List.mem_cons, List.not_mem_nil, or_false] at hK
  rcases hK with rfl | rfl | rfl | rfl <;>
    simp [ctrOf, lookupAL_cons, kN_ne_kE, kN_ne_kP, kN_ne_kI, kE_ne_kP, kE_ne_kI, kP_ne_kI]

theorem shape_updateAL (c : Counters) (hc : CounterShape c) (K : Str)
    (hK : K ∈ allocKindList) (n : Nat) : CounterShape (updateAL c K n) := by
  obtain ⟨a, b, p, d, rfl⟩ := hc
  simp only [allocKindList, List.mem_cons, List.not_mem_nil, or_false] at hK
  rcases hK with rfl | rfl | rfl | rfl
  · exact ⟨n, b, p, d, by simp [updateAL]⟩
  · exact ⟨a, n, p, d, by simp [updateAL, kN_ne_kE]⟩
  · exact ⟨a, b, n, d, by simp [updateAL, kN_ne_kP, kE_ne_kP]⟩
  · exact ⟨a, b, p, n, by simp [updateAL, kN_ne_kI, kE_ne_kI, kP_ne_kI]⟩

theorem keysOf_append {β : Type} (m l : List (Str × β)) :
    keysOf (m ++ l) = keysOf m ++ keysOf l := by
  simp [keysOf]

theorem nodup_append_singleton {α : Type} (l : List α) (a : α)
    (hnd : l.Nodup) (ha : a ∉ l) : (l ++ [a]).Nodup := by
  rw [List.nodup_append]
  refine ⟨hnd, List.nodup_singleton a, ?_⟩
  intro x hx hxa
  rw [List.mem_singleton] at hxa
  subst hxa
  exact ha hx

theorem ctrOf_updateAL_self (c : Counters) (K : Str) (n : Nat) :
    ctrOf (updateAL c K n) K = n := by
  unfold ctrOf
  rw [lookupAL_updateAL_self]
  rfl

theorem ctrOf_updateAL_ne (c : Counters) (K K' : Str) (n : Nat) (h : K' ≠ K) :
    ctrOf (updateAL c K n) K' = ctrOf c K' := by
  unfold ctrOf
  rw [lookupAL_updateAL_ne _ _ _ _ h]

theorem processAlloc_step (kind v : Str) (st : DetState)
    (hInv : MaskInv st.mapping st.counters) (hK : kind ∈ allocKindList) :
    processAlloc kind v st =
      some (mkToken kind (ctrOf st.counters kind + 1),
        ⟨st.mapping ++ [(mkToken kind (ctrOf st.counters kind + 1), v)],
         updateAL st.counters kind (ctrOf st.counters kind + 1),
         replaceAll v (mkToken kind (ctrOf st.counters kind + 1)) st.masked⟩) ∧
    MaskInv (st.mapping ++ [(mkToken kind (ctrOf st.counters kind + 1), v)])
      (updateAL st.counters kind (ctrOf st.counters kind + 1)) := by
  obtain ⟨hnd, hshape, hbound⟩ := hInv
  have hlk := shape_lookup st.counters hshape kind hK
  have hfresh : mkToken kind (ctrOf st.counters kind + 1) ∉ keysOf st.mapping := by
    intro hmem
    have := hbound kind hK (ctrOf st.counters kind + 1) hmem
    omega
  constructor
  · unfold processAlloc next_placeholder
    rw [hlk]
    simp only
    rw [updateAL_of_not_mem _ _ _ hfresh]
  · refine ⟨?_, shape_updateAL st.counters hshape kind hK _, ?_⟩
    · rw [keysOf_append]
      exact nodup_append_singleton _ _ hnd hfresh
    · intro K hK2 i hmem
      rw [keysOf_append] at hmem
      rcases List.mem_append.mp hmem with hm | hm
      · have hb := hbound K hK2 i hm
        by_cases hkk : K = kind
        · subst hkk
          rw [ctrOf_updateAL_self]
          omega
        · rw [ctrOf_updateAL_ne _ _ _ _ hkk]
          exact hb
      · simp only [keysOf, List.map_cons, List.map_nil, List.mem_singleton] at hm
        obtain ⟨rfl, rfl⟩ := mkToken_inj_kinds K kind hK2 hK _ _ hm
        rw [ctrOf_updateAL_self]

theorem processMatch_step (kind v : Str) (st : DetState)
    (hInv : MaskInv st.mapping st.counters) (hK : kind ∈ allocKindList) :
    ∃ ph st1, processMatch kind v st = some (ph, st1) ∧
      MaskInv st1.mapping st1.counters ∧ SubmapE st.mapping st1.mapping ∧
      (ph, v) ∈ st1.mapping := by
  cases hf : findKeyByValue st.mapping v with
  | none =>
    have hpm : processMatch kind v st = processAlloc kind v st := by
      unfold processMatch
      rw [hf]
    rw [hpm]
    obtain ⟨heq, hInv1⟩ := processAlloc_step kind v st hInv hK
    exact ⟨_, _, heq, hInv1, fun k w h => List.mem_append_left _ h,
      List.mem_append_right _ (List.mem_singleton.mpr rfl)⟩
  | some k =>
    by_cases hke : k = []
    · have hpm : processMatch kind v st = processAlloc kind v st := by
        unfold processMatch
        rw [hf]
        exact if_pos hke
      rw [hpm]
      obtain ⟨heq, hInv1⟩ := processAlloc_step kind v st hInv hK
      exact ⟨_, _, heq, hInv1, fun k w h => List.mem_append_left _ h,
        List.mem_append_right _ (List.mem_singleton.mpr rfl)⟩
    · have hpm : processMatch kind v st =
          some (k, ⟨updateAL st.mapping k v, st.counters, replaceAll v k st.masked⟩) := by
        unfold processMatch
        rw [hf]
        exact if_neg hke
      rw [hpm]
      have hmem := findKeyByValue_mem st.mapping v k hf
      rw [updateAL_of_mem st.mapping k v hInv.1 hmem]
      exact ⟨k, _, rfl, hInv, SubmapE.refl _, hmem⟩

theorem detFold_inv (kind : Str) (hK : kind ∈ allocKindList) (ms : List Str) :
    ∀ st : DetState, MaskInv st.mapping st.counters →
      ∃ st', detFold kind ms st = .ok st' ∧ MaskInv st'.mapping st'.counters ∧
        SubmapE st.mapping st'.mapping := by
  induction ms with
  | nil =>
    intro st hInv
    exact ⟨st, rfl, hInv, SubmapE.refl _⟩
  | cons m rest ih =>
    intro st hInv
    obtain ⟨ph, st1, heq, hInv1, hsub1, _⟩ := processMatch_step kind m st hInv hK
    obtain ⟨st', heq', hInv', hsub'⟩ := ih st1 hInv1
    refine ⟨st', ?_, hInv', hsub1.trans hsub'⟩
    simp only [detFold]
    rw [heq]
    exact heq'

theorem detPass_inv (text : Str) (m : Mapping) (c : Counters) (hInv : MaskInv m c) :
    ∃ st', detPass text m c = .ok st' ∧ MaskInv st'.mapping st'.counters ∧
      SubmapE m st'.mapping := by
  obtain ⟨s1, e1, i1, b1⟩ := detFold_inv kEMAIL (by decide) (emailFindall text) ⟨m, c, text⟩ hInv
  obtain ⟨s2, e2, i2, b2⟩ := detFold_inv kPHONE (by decide) (phoneFindall text) s1 i1
  obtain ⟨s3, e3, i3, b3⟩ := detFold_inv kID (by decide) (idFindall text) s2 i2
  refine ⟨s3, ?_, i3, (b1.trans b2).trans b3⟩
  unfold detPass
  rw [e1]
  simp only [Except.bind]
  rw [e2]
  simp only [Except.bind]
  exact e3

theorem detFold_covers (kind : Str) (hK : kind ∈ allocKindList) (ms : List Str) :
    ∀ st : DetState, MaskInv st.mapping st.counters →
      ∀ m ∈ ms, ∀ stf, detFold kind ms st = .ok stf →
        ∃ ph, (ph, m) ∈ stf.mapping := by
  induction ms with
  | nil =>
    intro st _ m hm
    exact absurd hm (List.not_mem_nil m)
  | cons m0 rest ih =>
    intro st hInv m hm stf hrun
    obtain ⟨ph0, st1, heq, hInv1, _, hmem1⟩ := processMatch_step kind m0 st hInv hK
    have hrun1 : detFold kind rest st1 = .ok stf := by
      simp only [detFold] at hrun
      rw [heq] at hrun
      exact hrun
    rcases List.mem_cons.mp hm with rfl | hm2
    · obtain ⟨stf2, heq2, _, hsub2⟩ := detFold_inv kind hK rest st1 hInv1
      rw [hrun1] at heq2
      have hse : stf2 = stf := (Except.ok.inj heq2).symm
      subst hse
      exact ⟨ph0, hsub2 ph0 m hmem1⟩
    · exact ih st1 hInv1 m hm2 stf hrun1

/-- No key of a (classifier-returned) mapping has the allocator token form
`<KIND_i>` for one of the four deterministic kinds. -/
def SafeKeys (mp : Mapping) : Prop :=
  ∀ kv ∈ mp, ∀ K ∈ allocKindList, ∀ i, kv.1 ≠ mkToken K i

/-- A classifier whose decoded mappings never mint allocator-shaped
placeholder tokens of their own. -/
def SafeClassifierKeys (env : Env) : Prop :=
  ∀ raw d mp, env.jsonParse raw = some d → d.mapping = some mp → SafeKeys mp

theorem merge_inv (mp : Mapping) :
    ∀ m c, MaskInv m c → SafeKeys mp →
      MaskInv (mergeMapping m mp) c ∧ SubmapE m (mergeMapping m mp) := by
  induction mp with
  | nil =>
    intro m c hInv _
    exact ⟨hInv, SubmapE.refl _⟩
  | cons kv rest ih =>
    intro m c hInv hsafe
    have hsafe_rest : SafeKeys rest := fun kv2 h2 => hsafe kv2 (List.mem_cons_of_mem _ h2)
    have hsafe_kv := hsafe kv (List.mem_cons_self _ _)
    have hstep : mergeMapping m (kv :: rest) =
        mergeMapping (if (lookupAL m kv.1).isSome then m else updateAL m kv.1 kv.2) rest := rfl
    rw [hstep]
    by_cases hlk : (lookupAL m kv.1).isSome
    · rw [if_pos hlk]
      exact ih m c hInv hsafe_rest
    · rw [if_neg hlk]
      have hnotmem : kv.1 ∉ keysOf m :=
        (lookupAL_eq_none m kv.1).mp (Option.not_isSome_iff_eq_none.mp hlk)
      rw [updateAL_of_not_mem _ _ _ hnotmem]
      have hInv1 : MaskInv (m ++ [(kv.1, kv.2)]) c := by
        obtain ⟨hnd, hshape, hbound⟩ := hInv
        refine ⟨?_, hshape, ?_⟩
        · rw [keysOf_append]
          exact nodup_append_singleton _ _ hnd hnotmem
        · intro K hK i hmem
          rw [keysOf_append] at hmem
          rcases List.mem_append.mp hmem with hm | hm
          · exact hbound K hK i hm
          · simp only [keysOf, List.map_cons, List.map_nil, List.mem_singleton] at hm
            exact absurd hm.symm (hsafe_kv K hK i)
      obtain ⟨hI, hS⟩ := ih (m ++ [(kv.1, kv.2)]) c hInv1 hsafe_rest
      exact ⟨hI, SubmapE.trans (fun k w h => List.mem_append_left _ h) hS⟩

theorem mask_pii_inv (env : Env) (m : Mapping) (c : Counters) (t : Str)
    (hInv : MaskInv m c) (henv : SafeClassifierKeys env) :
    MaskInv (mask_pii env m c t).2.1 (mask_pii env m c t).2.2 ∧
      SubmapE m (mask_pii env m c t).2.1 := by
  obtain ⟨st', hdet, hInv', hsub'⟩ := detPass_inv t m c hInv
  cases hc : (call_llm env.groq env.clsAttempts (maskPromptPre ++ st'.masked ++ maskPromptPost)).1 with
  | error e =>
    simp only [mask_pii, hdet, hc]
    exact ⟨hInv', hsub'⟩
  | ok raw =>
    cases hp : env.jsonParse raw with
    | some d =>
      cases hd : d.mapping with
      | none =>
        simp only [mask_pii, hdet, hc, hp, hd]
        exact ⟨hInv', hsub'⟩
      | some mp =>
        have hsafe := henv raw d mp hp hd
        obtain ⟨hI, hS⟩ := merge_inv mp st'.mapping st'.counters hInv' hsafe
        cases hmt : d.masked_text with
        | none =>
          simp only [mask_pii, hdet, hc, hp, hd, hmt]
          exact ⟨hI, hsub'.trans hS⟩
        | some mt =>
          simp only [mask_pii, hdet, hc, hp, hd, hmt]
          exact ⟨hI, hsub'.trans hS⟩
    | none =>
      cases hb : braceSpan raw with
      | none =>
        simp only [mask_pii, hdet, hc, hp, hb]
        exact ⟨hInv', hsub'⟩
      | some sub =>
        cases hp2 : env.jsonParse sub with
        | none =>
          simp only [mask_pii, hdet, hc, hp, hb, hp2]
          exact ⟨hInv', hsub'⟩
        | some d =>
          cases hd : d.mapping with
          | none =>
            simp only [mask_pii, hdet, hc, hp, hb, hp2, hd]
            exact ⟨hInv', hsub'⟩
          | some mp =>
            have hsafe := henv sub d mp hp2 hd
            obtain ⟨hI, hS⟩ := merge_inv mp st'.mapping st'.counters hInv' hsafe
            cases hmt : d.masked_text with
            | none =>
              simp only [mask_pii, hdet, hc, hp, hb, hp2, hd, hmt]
              exact ⟨hI, hsub'.trans hS⟩
            | some mt =>
              simp only [mask_pii, hdet, hc, hp, hb, hp2, hd, hmt]
              exact ⟨hI, hsub'.trans hS⟩

/-! ## Session runs: a sequence of turns over the session dicts -/

/-- Effect of one turn on the session dicts: run `mask_pii` with the
external world and text of that turn and keep the mutated mapping/counters (this is
what persists whether the turn later succeeds or fails). -/
def runTurn (p : Env × Str) (s : Mapping × Counters) : Mapping × Counters :=
  ((mask_pii p.1 s.1 s.2 p.2).2.1, (mask_pii p.1 s.1 s.2 p.2).2.2)

/-- All states of the session dicts over a run, starting state included. -/
def sessionTrace : List (Env × Str) → Mapping × Counters → List (Mapping × Counters)
  | [], s => [s]
  | p :: ps, s => s :: sessionTrace ps (runTurn p s)

theorem trace_facts (turns : List (Env × Str)) :
    ∀ s0 : Mapping × Counters, MaskInv s0.1 s0.2 →
      (∀ p ∈ turns, SafeClassifierKeys p.1) →
      ∀ s ∈ sessionTrace turns s0, MaskInv s.1 s.2 ∧ SubmapE s0.1 s.1 := by
  induction turns with
  | nil =>
    intro s0 hInv _ s hs
    simp only [sessionTrace, List.mem_singleton] at hs
    subst hs
    exact ⟨hInv, SubmapE.refl _⟩
  | cons p ps ih =>
    intro s0 hInv hsafe s hs
    simp only [sessionTrace, List.mem_cons] at hs
    rcases hs with rfl | hs
    · exact ⟨hInv, SubmapE.refl _⟩
    · have hsafe_p := hsafe p (List.mem_cons_self _ _)
      have hstep := mask_pii_inv p.1 s0.1 s0.2 p.2 hInv hsafe_p
      obtain ⟨hI, hS⟩ :=
        ih (runTurn p s0) hstep.1 (fun q hq => hsafe q (List.mem_cons_of_mem _ hq)) s hs
      exact ⟨hI, hstep.2.trans hS⟩

theorem trace_chain (turns : List (Env × Str)) :
    ∀ s0 : Mapping × Counters, MaskInv s0.1 s0.2 →
      (∀ p ∈ turns, SafeClassifierKeys p.1) →
      ∀ s1 ∈ sessionTrace turns s0, ∀ s2 ∈ sessionTrace turns s0,
        SubmapE s1.1 s2.1 ∨ SubmapE s2.1 s1.1 := by
  induction turns with
  | nil =>
    intro s0 _ _ s1 h1 s2 h2
    simp only [sessionTrace, List.mem_singleton] at h1 h2
    subst h1
    subst h2
    exact Or.inl (SubmapE.refl _)
  | cons p ps ih =>
    intro s0 hInv hsafe s1 h1 s2 h2
    simp only [sessionTrace, List.mem_cons] at h1 h2
    have hsafe_p := hsafe p (List.mem_cons_self _ _)
    have hsafe_ps : ∀ q ∈ ps, SafeClassifierKeys q.1 :=
      fun q hq => hsafe q (List.mem_cons_of_mem _ hq)
    have hstep := mask_pii_inv p.1 s0.1 s0.2 p.2 hInv hsafe_p
    rcases h1 with rfl | h1
    · rcases h2 with rfl | h2
      · exact Or.inl (SubmapE.refl _)
      · exact Or.inl
          (hstep.2.trans (trace_facts ps (runTurn p s1) hstep.1 hsafe_ps s2 h2).2)
    · rcases h2 with rfl | h2
      · exact Or.inr
          (hstep.2.trans (trace_facts ps (runTurn p s2) hstep.1 hsafe_ps s1 h1).2)
      · exact ih (runTurn p s0) hstep.1 hsafe_ps s1 h1 s2 h2

/-! ## Claim-statement helpers -/

/-- Whether a turn outcome is a user-visible failure report. -/
def isFailureOutcome : TurnOutcome → Bool
  | .noop => false
  | .errRateLimit => true
  | .errUnexpected => true

/-- Whether a call log contains a search call or an answer-generation call. -/
def callsSearchOrGen (log : List ExtCall) : Bool :=
  log.any fun c =>
    match c with
    | .serpSearch _ => true
    | .answerLlm _ => true
    | .classifierLlm => false

/-- A `DecidableEq` for `Except`, so concrete `mask_pii` results can be
compared by `decide`. -/
instance {ε α : Type} [DecidableEq ε] [DecidableEq α] : DecidableEq (Except ε α) := fun a b =>
  match a, b with
  | .error x, .error y =>
    if h : x = y then .isTrue (congrArg Except.error h)
    else .isFalse (fun hc => h (Except.error.inj hc))
  | .ok x, .ok y =>
    if h : x = y then .isTrue (congrArg Except.ok h)
    else .isFalse (fun hc => h (Except.ok.inj hc))
  | .error _, .ok _ => .isFalse (fun hc => Except.noConfusion hc)
  | .ok _, .error _ => .isFalse (fun hc => Except.noConfusion hc)

/-! ## C6 -/

/-- C6 (counterexample): the claim says digits lying inside a matched
phone number produce no ID placeholder and no ID mapping entry.  On
`"ref 555-123-4567"` the deterministic pass masks the phone number, yet
the ID scan — which runs `re.findall` over the *original* text, where
`4567` sits between a word boundary after `-` and the end — still
allocates `<ID_1>` and records `<ID_1> ↦ 4567` in the session mapping
(the counterexample shows the full detector state, whose mapping contains
the forbidden ID entry), even though `4567` lies inside the phone match. -/
theorem c6_counterexample_inner_digits :
    detPass "ref 555-123-4567".data [] initCounters =
      .ok ⟨[("<PHONE_1>".data, "555-123-4567".data), ("<ID_1>".data, "4567".data)],
           [(kNAME, 0), (kEMAIL, 0), (kPHONE, 1), (kID, 1)],
           "ref <PHONE_1>".data⟩ ∧
    containsSub "4567".data "555-123-4567".data = true :=
  ⟨rfl, by decide⟩

/-- C6 (amended): in every run of the deterministic detector, the ID scan
works on the word-boundary-delimited runs of 4+ digits of the *original*
text (`idFindall text`, with no exemption for digits consumed by an
earlier EMAIL/PHONE match), and every such run ends the detector pass
with a mapping entry holding it as value — a freshly allocated ID
placeholder or a reused one.  In particular (concrete part) a run lying
inside a matched phone number, `4567` inside `555-123-4567`, still
allocates `<ID_1>`, increments the ID counter and records
`<ID_1> ↦ 4567`; its placeholder merely does not appear in the masked
text, because the earlier phone replacement already removed those
digits. -/
theorem c6_id_scan_amended :
    (∀ (text : Str) (m : Mapping) (c : Counters), MaskInv m c →
      ∀ d ∈ idFindall text, ∃ st2 ph, detPass text m c = .ok st2 ∧
        (ph, d) ∈ st2.mapping) ∧
    (idFindall "ref 555-123-4567".data = ["4567".data] ∧
     detPass "ref 555-123-4567".data [] initCounters =
       .ok ⟨[("<PHONE_1>".data, "555-123-4567".data), ("<ID_1>".data, "4567".data)],
            [(kNAME, 0), (kEMAIL, 0), (kPHONE, 1), (kID, 1)],
            "ref <PHONE_1>".data⟩ ∧
     containsSub "<ID_1>".data "ref <PHONE_1>".data = false) := by
  constructor
  · intro text m c hInv d hd
    obtain ⟨s1, e1, i1, _⟩ := detFold_inv kEMAIL (by decide) (emailFindall text) ⟨m, c, text⟩ hInv
    obtain ⟨s2, e2, i2, _⟩ := detFold_inv kPHONE (by decide) (phoneFindall text) s1 i1
    obtain ⟨s3, e3, _, _⟩ := detFold_inv kID (by decide) (idFindall text) s2 i2
    have hpass : detPass text m c = .ok s3 := by
      unfold detPass
      rw [e1]
      simp only [Except.bind]
      rw [e2]
      simp only [Except.bind]
      exact e3
    obtain ⟨ph, hph⟩ := detFold_covers kID (by decide) (idFindall text) s2 i2 d hd s3 e3
    exact ⟨s3, ph, hpass, hph⟩
  · exact ⟨by decide, rfl, by decide⟩

/-- Witness for the universal part of the C6 amended theorem: the run
`4567` (which lies inside the phone match) on a fresh session. -/
theorem c6_id_scan_amended_witness :
    "4567".data ∈ idFindall "ref 555-123-4567".data ∧
    (∃ st2 ph, detPass "ref 555-123-4567".data [] initCounters = .ok st2 ∧
      (ph, "4567".data) ∈ st2.mapping) :=
  ⟨by decide,
   c6_id_scan_amended.1 "ref 555-123-4567".data [] initCounters maskInv_init
     "4567".data (by decide)⟩

/-! ## C7 -/

/-- C7 (counterexample): the claim says `allocate(kind)` succeeds for
*every* kind, creating the counter at zero if previously unseen.  But
`placeholder_counter[kind] += 1` raises `KeyError` on an unseen kind: on
the initial counters, allocating for `"SSN"` fails (returns `none` in the
model) instead of creating the counter. -/
theorem c7_counterexample_unseen_kind :
    next_placeholder "SSN".data initCounters = none ∧
    lookupAL initCounters "SSN".data = none := by
  decide

/-- C7 (amended): for every kind already present in the counter dict
(initially NAME, EMAIL, PHONE and ID), `_next_placeholder` succeeds: it
increments the counter of that kind (leaving the counters of all other
kinds unchanged) and returns `<KIND_N>` where N is the post-increment value;
for an unseen kind it raises `KeyError` instead of creating the counter
at zero. -/
theorem c7_allocate_amended :
    (∀ (ctrs : Counters) (kind : Str) (n : Nat), lookupAL ctrs kind = some n →
      next_placeholder kind ctrs = some (mkToken kind (n + 1), updateAL ctrs kind (n + 1)) ∧
      lookupAL (updateAL ctrs kind (n + 1)) kind = some (n + 1) ∧
      (∀ kind2, kind2 ≠ kind →
        lookupAL (updateAL ctrs kind (n + 1)) kind2 = lookupAL ctrs kind2) ∧
      n < n + 1) ∧
    (∀ (ctrs : Counters) (kind : Str), lookupAL ctrs kind = none →
      next_placeholder kind ctrs = none) := by
  constructor
  · intro ctrs kind n h
    refine ⟨?_, lookupAL_updateAL_self _ _ _,
      fun kind2 h2 => lookupAL_updateAL_ne _ _ _ _ h2, Nat.lt_succ_self n⟩
    unfold next_placeholder
    rw [h]
  · intro ctrs kind h
    unfold next_placeholder
    rw [h]

/-- Witness for the C7 amended theorem at the initial counters and kind
EMAIL. -/
theorem c7_allocate_amended_witness :
    lookupAL initCounters kEMAIL = some 0 ∧
    next_placeholder kEMAIL initCounters =
      some (mkToken kEMAIL 1, updateAL initCounters kEMAIL 1) :=
  ⟨by decide, (c7_allocate_amended.1 initCounters kEMAIL 0 (by decide)).1⟩

/-! ## C8 -/

/-- C8: `call_llm` retries a rate-limited attempt up to 2 additional times
(3 attempts total), sleeping 1 time-unit before the second attempt and 2
before the third (backoff starts at 1 and doubles); a successful attempt
returns its content with no further attempts, and a rate-limit on the
third attempt re-raises to the caller. -/
theorem c8_retry_backoff :
    ∀ (attempts : Nat → Str → AttemptR) (prompt content : Str),
      (attempts 0 prompt = .ok content →
        call_llm true attempts prompt = (.ok content, [], 1)) ∧
      (attempts 0 prompt = .rateLimit → attempts 1 prompt = .ok content →
        call_llm true attempts prompt = (.ok content, [1], 2)) ∧
      (attempts 0 prompt = .rateLimit → attempts 1 prompt = .rateLimit →
        attempts 2 prompt = .ok content →
        call_llm true attempts prompt = (.ok content, [1, 2], 3)) ∧
      (attempts 0 prompt = .rateLimit → attempts 1 prompt = .rateLimit →
        attempts 2 prompt = .rateLimit →
        call_llm true attempts prompt = (.error (), [1, 2], 3)) := by
  intro attempts prompt content
  refine ⟨?_, ?_, ?_, ?_⟩
  · intro h0
    simp [call_llm, callLlmGo, h0]
  · intro h0 h1
    simp [call_llm, callLlmGo, h0, h1]
  · intro h0 h1 h2
    simp [call_llm, callLlmGo, h0, h1, h2]
  · intro h0 h1 h2
    simp [call_llm, callLlmGo, h0, h1, h2]

/-- An attempt oracle that is rate-limited twice and then succeeds. -/
def twoRateLimits : Nat → Str → AttemptR :=
  fun i _ => if i < 2 then .rateLimit else .ok "done".data

/-- Witness for C8: two rate limits followed by a success yield the
success after sleeps of 1 and 2 time-units and 3 attempts. -/
theorem c8_retry_backoff_witness :
    twoRateLimits 0 [] = .rateLimit ∧ twoRateLimits 1 [] = .rateLimit ∧
    twoRateLimits 2 [] = .ok "done".data ∧
    call_llm true twoRateLimits [] = (.ok "done".data, [1, 2], 3) :=
  ⟨by decide, by decide, by decide,
   (c8_retry_backoff twoRateLimits [] "done".data).2.2.1 (by decide) (by decide) (by decide)⟩

/-! ## C10 -/

/-- C10: when the submitted input is empty or whitespace-only (its strip
is empty), `on_enter` returns before the `try` block: the session state —
cumulative mapping, per-kind counters, stored last turn, and even the
input box — is unchanged, the user sees nothing, and no external call
(masking classifier, search, generation) is made. -/
theorem c10_blank_input_frame :
    ∀ (env : Env) (st : SState), stripChars st.user_input = [] →
      on_enter env st = (st, .noop, []) := by
  intro env st h
  simp [on_enter, h]

/-- Witness for C10 on a whitespace-only input. -/
theorem c10_blank_input_frame_witness :
    stripChars "  \t ".data = [] ∧
    on_enter echoEnv ⟨[], initCounters, none, "  \t ".data⟩ =
      (⟨[], initCounters, none, "  \t ".data⟩, .noop, []) :=
  ⟨by decide, c10_blank_input_frame echoEnv ⟨[], initCounters, none, "  \t ".data⟩ (by decide)⟩

/-! ## C2 -/

/-- C2 (code bug): round-trip fails although all PII was captured.  On
`"send to ann@mail.com"` the deterministic pass captures the only PII span
(the email) and the classifier echoes the masked text with an empty
mapping — yet `turn_map` is built only from the mapping keys the classifier returned,
so it is empty, and `unmask_pii` returns the masked text `"send to
<EMAIL_1>"` instead of the original input. -/
theorem c2_roundtrip_violation :
    mask_pii echoEnv [] initCounters "send to ann@mail.com".data =
      (.ok ("send to <EMAIL_1>".data, []),
       [("<EMAIL_1>".data, "ann@mail.com".data)],
       [(kNAME, 0), (kEMAIL, 1), (kPHONE, 0), (kID, 0)]) ∧
    unmask_pii "send to <EMAIL_1>".data [] = "send to <EMAIL_1>".data ∧
    "send to <EMAIL_1>".data ≠ "send to ann@mail.com".data :=
  ⟨rfl, rfl, by decide⟩

/-! ## C3 -/

/-- C3 (code bug): `turn_map = {ph: mapping[ph] for ph in data["mapping"]}`
contains only the mapping keys of the classifier itself.  On `"mail bob@x.io"`
with a classifier that echoes its input and reports an empty mapping, the
deterministic-pass placeholder `<EMAIL_1>` appears in the final masked
text and in the session mapping, but the returned turn map is empty — the
deterministic entry the claim requires is omitted. -/
theorem c3_turn_map_omits_det_entries :
    mask_pii echoEnv [] initCounters "mail bob@x.io".data =
      (.ok ("mail <EMAIL_1>".data, []),
       [("<EMAIL_1>".data, "bob@x.io".data)],
       [(kNAME, 0), (kEMAIL, 1), (kPHONE, 0), (kID, 0)]) ∧
    containsSub "<EMAIL_1>".data "mail <EMAIL_1>".data = true :=
  ⟨rfl, by decide⟩

/-! ## C9 -/

/-- C9 (counterexample): the claim concludes that mask returns the text
*unchanged* whenever nothing matches and the classifier mapping is empty,
but `mask_pii` returns `data["masked_text"]` verbatim: a classifier that
reports an empty mapping yet rewrites the text (here to `"REDACTED"`)
makes mask return the rewritten text, not the input. -/
theorem c9_counterexample_classifier_rewrites :
    emailFindall "hi there".data = [] ∧ phoneFindall "hi there".data = [] ∧
    idFindall "hi there".data = [] ∧
    mask_pii rewriteEnv [] initCounters "hi there".data =
      (.ok ("REDACTED".data, []), [], initCounters) ∧
    "REDACTED".data ≠ "hi there".data :=
  ⟨by decide, by decide, by decide, rfl, by decide⟩

/-- C9 (amended): if no deterministic pattern matches and the classifier
returns an empty mapping *and echoes its input as `masked_text`*, then
`mask_pii` returns the text unchanged with an empty turn mapping and the
session dicts untouched — a normal success, not an error. -/
theorem c9_no_pii_noop_amended :
    ∀ (env : Env) (m : Mapping) (c : Counters) (text raw : Str),
      emailFindall text = [] → phoneFindall text = [] → idFindall text = [] →
      env.groq = true →
      env.clsAttempts 0 (maskPromptPre ++ text ++ maskPromptPost) = .ok raw →
      env.jsonParse raw = some ⟨some text, some []⟩ →
      mask_pii env m c text = (.ok (text, []), m, c) := by
  intro env m c text raw he hp hi hg ha hj
  have hdet : detPass text m c = .ok ⟨m, c, text⟩ := by
    unfold detPass
    rw [he, hp, hi]
    rfl
  have hcall :
      (call_llm env.groq env.clsAttempts (maskPromptPre ++ text ++ maskPromptPost)).1 =
        .ok raw := by
    rw [hg]
    unfold call_llm callLlmGo
    rw [if_pos rfl, ha]
  simp only [mask_pii, hdet, hcall, hj, mergeMapping, List.foldl_nil, List.map_nil]

/-- Witness for the C9 amended theorem: `"hi there"` under the echoing
classifier. -/
theorem c9_no_pii_noop_amended_witness :
    emailFindall "hi there".data = [] ∧
    mask_pii echoEnv [] initCounters "hi there".data =
      (.ok ("hi there".data, []), [], initCounters) :=
  ⟨by decide,
   c9_no_pii_noop_amended echoEnv [] initCounters "hi there".data
     (jsonWrap "hi there".data) (by decide) (by decide) (by decide) rfl
     (by decide) (by decide)⟩

/-! ## C5 -/

/-- C5 (counterexample): a classifier pass may contribute its own
placeholder token.  In turn 1 the classifier returns
`{"<EMAIL_1>": "bob"}`, which the merge inserts; in turn 2 the
deterministic pass masks `a@b.io`, allocates `<EMAIL_1>` (the EMAIL
counter was still 0) and overwrites the entry — so the same placeholder
`<EMAIL_1>` is mapped to `"bob"` at one point of the session history and
to `"a@b.io"` at a later point. -/
theorem c5_counterexample_placeholder_collision :
    lookupAL (mask_pii advEnv [] initCounters "hi".data).2.1 "<EMAIL_1>".data =
      some "bob".data ∧
    lookupAL
      (mask_pii echoEnv (mask_pii advEnv [] initCounters "hi".data).2.1
        (mask_pii advEnv [] initCounters "hi".data).2.2 "a@b.io".data).2.1
      "<EMAIL_1>".data = some "a@b.io".data ∧
    "bob".data ≠ "a@b.io".data := by
  refine ⟨by decide, by decide, by decide⟩

/-- C5 (amended): over any session — any sequence of `mask_pii` calls from
the fresh session state — no placeholder is ever mapped to two distinct
original values at any two points of the history, *provided* no
classifier pass contributes a mapping key of the allocator token form
`<KIND_i>` for the four deterministic kinds; without that proviso the
counterexample shows a classifier-minted `<EMAIL_1>` being overwritten by
a later deterministic allocation. -/
theorem c5_no_collision_amended :
    ∀ turns : List (Env × Str), (∀ p ∈ turns, SafeClassifierKeys p.1) →
      ∀ s1 ∈ sessionTrace turns ([], initCounters),
        ∀ s2 ∈ sessionTrace turns ([], initCounters),
          ∀ k v w, (k, v) ∈ s1.1 → (k, w) ∈ s2.1 → v = w := by
  intro turns hsafe s1 h1 s2 h2 k v w hv hw
  rcases trace_chain turns ([], initCounters) maskInv_init hsafe s1 h1 s2 h2 with hsub | hsub
  · exact mem_mem_nodup s2.1 k v w
      (trace_facts turns ([], initCounters) maskInv_init hsafe s2 h2).1.1 (hsub k v hv) hw
  · exact mem_mem_nodup s1.1 k v w
      (trace_facts turns ([], initCounters) maskInv_init hsafe s1 h1).1.1 hv (hsub k w hw)

/-- The echoing classifier never contributes any mapping key at all, so
it trivially never mints allocator-shaped tokens. -/
theorem safeClassifierKeys_echoEnv : SafeClassifierKeys echoEnv := by
  intro raw d mp hparse hmp
  have hparse2 : echoJsonParse raw = some d := hparse
  unfold echoJsonParse at hparse2
  split at hparse2
  · have hd := Option.some.inj hparse2
    subst hd
    have hmp2 := Option.some.inj hmp
    subst hmp2
    intro kv hkv
    simp at hkv
  · exact absurd hparse2 (by simp)

/-- Witness for the C5 amended theorem: a one-turn session with the
echoing classifier; the state after the turn maps `<EMAIL_1>` to
`a@b.io`, and the theorem applies to give value agreement. -/
theorem c5_no_collision_amended_witness :
    SafeClassifierKeys echoEnv ∧ ("a@b.io".data : Str) = "a@b.io".data :=
  ⟨safeClassifierKeys_echoEnv,
   c5_no_collision_amended [(echoEnv, "a@b.io".data)]
     (by
       intro p hp
       simp only [List.mem_singleton] at hp
       subst hp
       exact safeClassifierKeys_echoEnv)
     ([("<EMAIL_1>".data, "a@b.io".data)],
      [(kNAME, 0), (kEMAIL, 1), (kPHONE, 0), (kID, 0)])
     (by decide)
     ([("<EMAIL_1>".data, "a@b.io".data)],
      [(kNAME, 0), (kEMAIL, 1), (kPHONE, 0), (kID, 0)])
     (by decide)
     "<EMAIL_1>".data "a@b.io".data "a@b.io".data (by decide) (by decide)⟩

/-! ## C4 -/

/-- C4: repeat masking of an already-mapped literal value reuses the
first placeholder issued for it.  General part: whenever the lookup
`next((k for k,v in mapping.items() if v==match), None)` finds a
(non-empty) key — i.e. the value is already mapped — the loop body of
`mask_pii` returns exactly that placeholder and leaves both the session
mapping and the per-kind counters unchanged.  Concrete part: two turns of
one session both containing `alice@example.com` both produce `<EMAIL_1>`
as the whole masked query, with the EMAIL counter at 1 after each turn. -/
theorem c4_repeat_value_reuses_placeholder :
    (∀ (kind v k : Str) (st : DetState),
        findKeyByValue st.mapping v = some k → k ≠ [] → (keysOf st.mapping).Nodup →
        processMatch kind v st =
          some (k, ⟨st.mapping, st.counters, replaceAll v k st.masked⟩)) ∧
    (mask_pii echoEnv [] initCounters "alice@example.com".data =
      (.ok ("<EMAIL_1>".data, []),
       [("<EMAIL_1>".data, "alice@example.com".data)],
       [(kNAME, 0), (kEMAIL, 1), (kPHONE, 0), (kID, 0)]) ∧
     mask_pii echoEnv [("<EMAIL_1>".data, "alice@example.com".data)]
        [(kNAME, 0), (kEMAIL, 1), (kPHONE, 0), (kID, 0)] "alice@example.com".data =
      (.ok ("<EMAIL_1>".data, []),
       [("<EMAIL_1>".data, "alice@example.com".data)],
       [(kNAME, 0), (kEMAIL, 1), (kPHONE, 0), (kID, 0)])) := by
  constructor
  · intro kind v k st hf hke hnd
    have hpm : processMatch kind v st =
        some (k, ⟨updateAL st.mapping k v, st.counters, replaceAll v k st.masked⟩) := by
      unfold processMatch
      rw [hf]
      exact if_neg hke
    rw [hpm, updateAL_of_mem st.mapping k v hnd (findKeyByValue_mem st.mapping v k hf)]
  · exact ⟨rfl, rfl⟩

/-- Witness for the general part of C4: a mapping already holding
`<EMAIL_1> ↦ x@y.io` reuses `<EMAIL_1>` and keeps the counters. -/
theorem c4_repeat_value_reuses_placeholder_witness :
    findKeyByValue [("<EMAIL_1>".data, "x@y.io".data)] "x@y.io".data =
      some "<EMAIL_1>".data ∧
    processMatch kEMAIL "x@y.io".data
        ⟨[("<EMAIL_1>".data, "x@y.io".data)], initCounters, "x@y.io".data⟩ =
      some ("<EMAIL_1>".data,
        ⟨[("<EMAIL_1>".data, "x@y.io".data)], initCounters, "<EMAIL_1>".data⟩) :=
  ⟨by decide,
   c4_repeat_value_reuses_placeholder.1 kEMAIL "x@y.io".data "<EMAIL_1>".data
     ⟨[("<EMAIL_1>".data, "x@y.io".data)], initCounters, "x@y.io".data⟩
     (by decide) (by decide) (by decide)⟩

/-! ## C1 -/

/-- C1: if the masking step fails — classifier output unparseable after
both parse attempts (`st.stop()` on no brace block, or the second
`JSONDecodeError`), a required field absent (`KeyError` on `"mapping"` or
`"masked_text"`), retries exhausted (`RateLimitError`), or the internal
counter `KeyError` — then the turn aborts before any external search or
generation call: the external-call log of `on_enter` contains neither a
`serp_search` call nor an answer-generation `call_llm` call, and the turn
reports a failure to the user (the rate-limit banner for `RateLimitError`,
the `Unexpected error` banner otherwise; the `StopException` of `st.stop()`
subclasses `Exception` and is caught and reported by the same handler). -/
theorem c1_mask_failure_aborts_turn :
    ∀ (env : Env) (st : SState) (e : MaskErr),
      stripChars st.user_input ≠ [] →
      (mask_pii env st.global_mapping st.placeholder_counter (stripChars st.user_input)).1 =
        .error e →
      isFailureOutcome (on_enter env st).2.1 = true ∧
      callsSearchOrGen (on_enter env st).2.2 = false := by
  intro env st e hne herr
  cases hr : mask_pii env st.global_mapping st.placeholder_counter (stripChars st.user_input) with
  | mk res rest =>
    rw [hr] at herr
    change res = Except.error e at herr
    subst herr
    cases e <;> simp [on_enter, hne, hr, isFailureOutcome, callsSearchOrGen]

/-- Witness for C1: a classifier answering prose with no brace block on a
fresh session; the turn reports a failure and the log holds only the
classifier call. -/
theorem c1_mask_failure_aborts_turn_witness :
    stripChars "hello".data ≠ [] ∧
    (mask_pii stopEnv [] initCounters (stripChars "hello".data)).1 = .error .stopped ∧
    isFailureOutcome (on_enter stopEnv ⟨[], initCounters, none, "hello".data⟩).2.1 = true ∧
    callsSearchOrGen (on_enter stopEnv ⟨[], initCounters, none, "hello".data⟩).2.2 = false :=
  ⟨by decide, by decide,
   (c1_mask_failure_aborts_turn stopEnv ⟨[], initCounters, none, "hello".data⟩ .stopped
     (by decide) (by decide)).1,
   (c1_mask_failure_aborts_turn stopEnv ⟨[], initCounters, none, "hello".data⟩ .stopped
     (by decide) (by decide)).2⟩
